import Mathlib

/-!
# Verification of the ValpoPlanning sensor-network optimizer

A shallow embedding of the core of the ValpoPlanning repository
(`src/models.py`, `src/optimizer.py`): the acoustic link model, the
connectivity checker, the fitness evaluator and the genetic operators of
the NSGA-II topology optimizer, together with proofs of the spec's
claims about them.

Numbers are embedded as rationals (`ℚ`): the Python code computes with
floats, and the claims under study are algebraic/structural facts about
the formulas, not about floating-point rounding.  Transcendental
ingredients (`sin`, `cos`, `log10`, the haversine distance) are carried
as oracle parameters: the code treats them as opaque numeric
subroutines, and every claim below is either independent of their
values or explicitly quantified over them.  Python's global
pseudo-random generator is embedded as an explicit stream of draws
(`ℕ → ℚ`): the generator is a deterministic state machine, so one run's
sequence of draws is a function of its initial state.

The file is laid out as: all definitions first, then the lemmas and the
claim theorems.
-/

/-- A node of an individual.  The Python encoding is the 5-list
`[lat, lon, depth, active, type]` with `type`: 0 = sensor node (SN),
1 = gateway buoy (BG), built in `NetworkOptimizer._create_individual`. -/
structure Node where
  lat : ℚ
  lon : ℚ
  depth : ℚ
  active : ℤ
  nodeType : ℤ
deriving DecidableEq, Repr

/-- A point of interest as consumed by `NetworkOptimizer._evaluate`
(fields `id`, `lat`, `lon`, `coverage_radius_m` of the POI dict). -/
structure Poi where
  id : ℤ
  lat : ℚ
  lon : ℚ
  coverageRadius : ℚ
deriving DecidableEq, Repr

/-- `models.thorp_absorption_coefficient`: Thorp (1967) absorption in
dB/km, `α = 0.11 f²/(1+f²) + 44 f²/(4100+f²) + 0.000275 f² + 0.003`. -/
def thorp_absorption_coefficient (f : ℚ) : ℚ :=
  (11/100) * f^2 / (1 + f^2) + 44 * f^2 / (4100 + f^2) + (275/1000000) * f^2 + 3/1000

/-- The loop of `models.max_communication_range`: binary search over
`[low, high]` that keeps the half of the interval on which the probe
`p mid` (the embedding of `calculate_snr(mid, ...) >= min_snr_db`, a
transcendental test carried as a Boolean oracle) succeeds at the lower
end, until the interval width is at most the 0.1 m tolerance; the code
then returns `low`.  Termination is by the interval width halving. -/
def bisectLoop (p : ℚ → Bool) (low high : ℚ) : ℚ :=
  if h : 1/10 < high - low then
    let mid := (low + high) / 2
    if p mid then bisectLoop p mid high else bisectLoop p low mid
  else
    low
termination_by (Int.ceil (10 * (high - low))).toNat
decreasing_by
  · have hw : high - (low + high) / 2 = (high - low) / 2 := by ring
    rw [hw]
    have hx : (1 : ℚ) < 10 * (high - low) := by linarith
    have hceil2 : (2 : ℤ) ≤ Int.ceil (10 * (high - low)) := by
      rw [show (2:ℤ) = 1 + 1 by norm_num, Int.add_one_le_iff, Int.lt_ceil]
      exact_mod_cast hx
    have hle : Int.ceil (10 * ((high - low) / 2)) ≤ Int.ceil (10 * (high - low)) - 1 := by
      rw [Int.ceil_le]
      push_cast
      have hxle : 10 * (high - low) ≤ (Int.ceil (10 * (high - low)) : ℚ) := Int.le_ceil _
      have h2 : (2 : ℚ) ≤ (Int.ceil (10 * (high - low)) : ℚ) := by exact_mod_cast hceil2
      linarith
    omega
  · have hw : (low + high) / 2 - low = (high - low) / 2 := by ring
    rw [hw]
    have hx : (1 : ℚ) < 10 * (high - low) := by linarith
    have hceil2 : (2 : ℤ) ≤ Int.ceil (10 * (high - low)) := by
      rw [show (2:ℤ) = 1 + 1 by norm_num, Int.add_one_le_iff, Int.lt_ceil]
      exact_mod_cast hx
    have hle : Int.ceil (10 * ((high - low) / 2)) ≤ Int.ceil (10 * (high - low)) - 1 := by
      rw [Int.ceil_le]
      push_cast
      have hxle : 10 * (high - low) ≤ (Int.ceil (10 * (high - low)) : ℚ) := Int.le_ceil _
      have h2 : (2 : ℚ) ≤ (Int.ceil (10 * (high - low)) : ℚ) := by exact_mod_cast hceil2
      linarith
    omega

/-- `models.max_communication_range`: binary search over the fixed
interval `[1, 10000]` metres, returning `low`. -/
def max_communication_range (p : ℚ → Bool) : ℚ :=
  bisectLoop p 1 10000

/-- The distance a call `models.haversine_distance(a[0], a[1], b[0], b[1])`
computes between two nodes; `d` is the haversine oracle
`(lat1, lon1, lat2, lon2) ↦ metres`. -/
def havDist (d : ℚ → ℚ → ℚ → ℚ → ℚ) (a b : Node) : ℚ :=
  d a.lat a.lon b.lat b.lon

/-- The edge relation of the graph `NetworkOptimizer._check_connectivity`
builds: for every pair of indices `i < j` into `all_nodes` whose nodes
lie within `maxRange`, an undirected edge `{i, j}` is added, so the
adjacency test for `(i, j)` in either order consults the distance
computed at the ordered pair `(min i j, max i j)`. -/
def adjB (d : ℚ → ℚ → ℚ → ℚ → ℚ) (maxRange : ℚ) (all : List Node)
    (i j : Fin all.length) : Bool :=
  if i.val < j.val then decide (havDist d (all.get i) (all.get j) ≤ maxRange)
  else if j.val < i.val then decide (havDist d (all.get j) (all.get i) ≤ maxRange)
  else false

/-- One round of breadth-first expansion: add every vertex adjacent to
the current frontier set. -/
def reachStep {n : ℕ} (adj : Fin n → Fin n → Bool) (s : Finset (Fin n)) :
    Finset (Fin n) :=
  s ∪ Finset.univ.filter (fun j => ∃ i ∈ s, adj i j = true)

/-- `k` rounds of breadth-first expansion from the start vertex `v`. -/
def reachIter {n : ℕ} (adj : Fin n → Fin n → Bool) : ℕ → Fin n → Finset (Fin n)
  | 0, v => {v}
  | k + 1, v => reachStep adj (reachIter adj k v)

/-- The reachability test `networkx.has_path` performs (breadth-first
search); `n` rounds of expansion saturate on a graph with `n`
vertices. -/
def reachBfs {n : ℕ} (adj : Fin n → Fin n → Bool) (s t : Fin n) : Bool :=
  decide (t ∈ reachIter adj n s)

/-- The gateway indices of `_check_connectivity`:
`bg_indices = [i for i, node in enumerate(all_nodes) if node[4] == 1]`. -/
def bgIndices (all : List Node) : List (Fin all.length) :=
  (List.finRange all.length).filter (fun i => decide ((all.get i).nodeType = 1))

/-- The sensor indices `_check_connectivity` iterates over:
`range(len(active_sns))`, as indices into `all_nodes = active_sns ++ active_bgs`. -/
def snIndices (numSns : ℕ) (all : List Node) : List (Fin all.length) :=
  (List.finRange all.length).filter (fun i => decide (i.val < numSns))

/-- `NetworkOptimizer._check_connectivity`: false when no active
gateway was passed; otherwise build the proximity graph over
`all_nodes = active_sns + active_bgs`, collect the indices of
gateway-typed nodes, and require every sensor index to reach at least
one of them. -/
def check_connectivity (d : ℚ → ℚ → ℚ → ℚ → ℚ) (maxRange : ℚ)
    (activeSns activeBgs : List Node) : Bool :=
  if activeBgs.isEmpty then false
  else
    if (bgIndices (activeSns ++ activeBgs)).isEmpty then false
    else
      (snIndices activeSns.length (activeSns ++ activeBgs)).all fun s =>
        (bgIndices (activeSns ++ activeBgs)).any fun b =>
          reachBfs (adjB d maxRange (activeSns ++ activeBgs)) s b

/-- The active-sensor filter of `_evaluate`:
`[node for node in individual if node[4] == 0 and node[3] == 1]`. -/
def activeSns (ind : List Node) : List Node :=
  ind.filter fun nd => decide (nd.nodeType = 0) && decide (nd.active = 1)

/-- The active-gateway filter of `_evaluate`:
`[node for node in individual if node[4] == 1 and node[3] == 1]`. -/
def activeBgs (ind : List Node) : List Node :=
  ind.filter fun nd => decide (nd.nodeType = 1) && decide (nd.active = 1)

/-- The inner loop of the coverage computation: a POI is covered when
some active sensor (first match in node iteration order) lies within
its coverage radius. -/
def poiCovered (d : ℚ → ℚ → ℚ → ℚ → ℚ) (sns : List Node) (poi : Poi) : Bool :=
  sns.any fun nd => decide (d poi.lat poi.lon nd.lat nd.lon ≤ poi.coverageRadius)

/-- `len(covered_pois)` where `covered_pois` is the Python set of ids of
covered POIs: the number of distinct ids among the covered POIs. -/
def coveredCount (d : ℚ → ℚ → ℚ → ℚ → ℚ) (pois : List Poi) (sns : List Node) : ℕ :=
  (((pois.filter (poiCovered d sns)).map Poi.id).dedup).length

/-- The optimizer state `_evaluate` reads: the POI list, the relative
unit costs (`config.RELATIVE_COSTS`), the communication range computed
at construction, and the haversine oracle. -/
structure EvalCtx where
  pois : List Poi
  sensorCost : ℚ
  gatewayCost : ℚ
  maxRange : ℚ
  dist : ℚ → ℚ → ℚ → ℚ → ℚ

/-- The local `cost` of `_evaluate`:
`num_sns * RELATIVE_COSTS['sensor_node'] + num_bgs * RELATIVE_COSTS['gateway_buoy']`. -/
def evalCost (ctx : EvalCtx) (ind : List Node) : ℚ :=
  ((activeSns ind).length : ℚ) * ctx.sensorCost + ((activeBgs ind).length : ℚ) * ctx.gatewayCost

/-- The local `coverage_pct` of `_evaluate`:
`(len(covered_pois) / len(self.pois)) * 100`. -/
def coveragePct (ctx : EvalCtx) (ind : List Node) : ℚ :=
  ((coveredCount ctx.dist ctx.pois (activeSns ind) : ℚ) / (ctx.pois.length : ℚ)) * 100

/-- `NetworkOptimizer._evaluate`.  The `Except` layer is the Python
exception channel: the only partial operation in the body is the
division by `len(self.pois)` in the coverage percentage, reached once
both active counts are positive. -/
def evaluate (ctx : EvalCtx) (ind : List Node) : Except String (ℚ × ℚ) :=
  if (activeSns ind).length = 0 ∨ (activeBgs ind).length = 0 then .ok (1000000, 0)
  else if ctx.pois.length = 0 then .error "ZeroDivisionError"
  else if check_connectivity ctx.dist ctx.maxRange (activeSns ind) (activeBgs ind) then
    .ok (evalCost ctx ind, coveragePct ctx ind)
  else
    .ok (evalCost ctx ind * 10, coveragePct ctx ind * (1/10))

/-- `NetworkOptimizer._crossover` on individuals, given the two cut
points drawn by `random.randint(1, size - 1)`: sort the cut points,
then swap the sub-sequences `[p1:p2)` of the two individuals. -/
def crossover (p1 p2 : ℕ) (ind1 ind2 : List Node) : List Node × List Node :=
  let q1 := if p1 > p2 then p2 else p1
  let q2 := if p1 > p2 then p1 else p2
  (ind1.take q1 ++ (ind2.drop q1).take (q2 - q1) ++ ind1.drop q2,
   ind2.take q1 ++ (ind1.drop q1).take (q2 - q1) ++ ind2.drop q2)

/-- The per-node outcome of the random draws inside
`NetworkOptimizer._mutate`: either the node is not mutated
(`random.random() >= mut_rate`), or a position mutation with the two
Gaussian perturbations drawn for latitude and longitude, or an
activation-bit flip. -/
inductive MutDraw where
  | skip
  | position (dLat dLon : ℚ)
  | activation
deriving DecidableEq, Repr

/-- `numpy.clip(x, lo, hi)`: `min(hi, max(lo, x))` (the upper bound is
applied last). -/
def npClip (x lo hi : ℚ) : ℚ := min hi (max lo x)

/-- The area geometry `_mutate` uses: the centre coordinates and the
lat/lon degree ranges derived from the area radius (the longitude range
involves `cos`, carried here as an already-computed parameter). -/
structure MutCtx where
  centerLat : ℚ
  centerLon : ℚ
  latRange : ℚ
  lonRange : ℚ

/-- The body of `_mutate` for one node under one draw outcome: position
mutation perturbs and clips latitude and longitude; activation mutation
replaces the activation bit by `1 - active`; depth and type are not
touched. -/
def mutateNode (ctx : MutCtx) (draw : MutDraw) (nd : Node) : Node :=
  match draw with
  | .skip => nd
  | .position dLat dLon =>
      { nd with
        lat := npClip (nd.lat + dLat) (ctx.centerLat - ctx.latRange) (ctx.centerLat + ctx.latRange)
        lon := npClip (nd.lon + dLon) (ctx.centerLon - ctx.lonRange) (ctx.centerLon + ctx.lonRange) }
  | .activation => { nd with active := 1 - nd.active }

/-- The loop of `NetworkOptimizer._mutate` over node positions `i`,
threading the index into the stream of draw outcomes. -/
def mutateFrom (ctx : MutCtx) (draws : ℕ → MutDraw) : ℕ → List Node → List Node
  | _, [] => []
  | i, nd :: rest => mutateNode ctx (draws i) nd :: mutateFrom ctx draws (i + 1) rest

/-- `NetworkOptimizer._mutate`, as a function of the stream of per-node
random-draw outcomes. -/
def mutate (ctx : MutCtx) (draws : ℕ → MutDraw) (ind : List Node) : List Node :=
  mutateFrom ctx draws 0 ind

/-- The construction geometry `_create_individual` reads from the
optimizer and the configuration. -/
structure CreateCtx where
  maxSns : ℕ
  maxBgs : ℕ
  centerLat : ℚ
  centerLon : ℚ
  latRange : ℚ
  lonRange : ℚ
  depthMin : ℚ
  depthMax : ℚ

/-- `random.uniform(a, b)` applied to one raw draw `r ∈ [0, 1]` of the
underlying generator. -/
def uniformDraw (a b r : ℚ) : ℚ := a + (b - a) * r

/-- `random.choice([0, 1])` applied to one raw draw of the underlying
generator. -/
def choiceBit (r : ℚ) : ℤ := if r < 1/2 then 0 else 1

/-- One sensor node of `_create_individual`: radius fraction uniform in
`(0.1, 0.9)`, depth uniform in the bathymetric bounds, random
activation bit, type tag 0.  The draw for the angle is consumed through
the `sin`/`cos` oracles (the code computes `sin(angle)`, `cos(angle)`
of a uniform angle; the composition of the angle draw with the
trigonometric functions is the oracle pair `sinQ`, `cosQ`). -/
def sensorNode (ctx : CreateCtx) (sinQ cosQ : ℚ → ℚ)
    (rAngle rRadius rDepth rActive : ℚ) : Node :=
  { lat := ctx.centerLat + uniformDraw (1/10) (9/10) rRadius * ctx.latRange * sinQ rAngle
    lon := ctx.centerLon + uniformDraw (1/10) (9/10) rRadius * ctx.lonRange * cosQ rAngle
    depth := uniformDraw ctx.depthMin ctx.depthMax rDepth
    active := choiceBit rActive
    nodeType := 0 }

/-- One gateway node of `_create_individual`: radius fraction uniform in
`(0.3, 0.8)`, depth fixed at 0 (surface), random activation bit, type
tag 1. -/
def gatewayNode (ctx : CreateCtx) (sinQ cosQ : ℚ → ℚ)
    (rAngle rRadius rActive : ℚ) : Node :=
  { lat := ctx.centerLat + uniformDraw (3/10) (8/10) rRadius * ctx.latRange * sinQ rAngle
    lon := ctx.centerLon + uniformDraw (3/10) (8/10) rRadius * ctx.lonRange * cosQ rAngle
    depth := 0
    active := choiceBit rActive
    nodeType := 1 }

/-- `NetworkOptimizer._create_individual` as a function of the stream of
raw draws `u` of the global generator (Python's Mersenne Twister is a
deterministic state machine, so the stream is a function of the
generator state at call time): `max_sensor_nodes` sensor nodes
consuming four draws each, then `max_gateway_buoys` gateway nodes
consuming three draws each. -/
def create_individual (ctx : CreateCtx) (sinQ cosQ : ℚ → ℚ) (u : ℕ → ℚ) : List Node :=
  ((List.range ctx.maxSns).map fun i =>
    sensorNode ctx sinQ cosQ (u (4*i)) (u (4*i+1)) (u (4*i+2)) (u (4*i+3))) ++
  ((List.range ctx.maxBgs).map fun i =>
    gatewayNode ctx sinQ cosQ (u (4*ctx.maxSns + 3*i)) (u (4*ctx.maxSns + 3*i+1))
      (u (4*ctx.maxSns + 3*i+2)))

/-- The state `NetworkOptimizer.__init__` builds: the stored
construction arguments, the NSGA-II parameters read from
`config.NSGA2_PARAMS`, and the derived communication range. -/
structure OptimizerState where
  pois : List Poi
  centerLat : ℚ
  centerLon : ℚ
  areaRadiusKm : ℚ
  popSize : ℤ
  nGen : ℤ
  mutRate : ℚ
  cxRate : ℚ
  maxSns : ℤ
  maxBgs : ℤ
  depthMin : ℚ
  depthMax : ℚ
  maxRangeM : ℚ

/-- `NetworkOptimizer.__init__`.  The `Except` layer is the Python
exception channel: the body stores its arguments and the configured
NSGA-II parameters, computes the communication range by binary search
(`snrOk` is the SNR probe oracle), and registers the DEAP operators; it
contains no validation of any argument, so no `.error` is ever
produced. -/
def network_optimizer_init (pois : List Poi) (centerLat centerLon areaRadiusKm : ℚ)
    (popSize nGen : ℤ) (mutRate cxRate : ℚ) (maxSns maxBgs : ℤ)
    (depthMin depthMax : ℚ) (snrOk : ℚ → Bool) : Except String OptimizerState :=
  .ok
    { pois := pois
      centerLat := centerLat
      centerLon := centerLon
      areaRadiusKm := areaRadiusKm
      popSize := popSize
      nGen := nGen
      mutRate := mutRate
      cxRate := cxRate
      maxSns := maxSns
      maxBgs := maxBgs
      depthMin := depthMin
      depthMax := depthMax
      maxRangeM := max_communication_range snrOk }

/-! ## Lemmas and claim theorems -/

/-- One rising term of the Thorp formula, `f² / (c + f²)`. -/
lemma thorp_term_lt (c : ℚ) (hc : 0 < c) {a b : ℚ} (ha : 0 ≤ a) (hab : a < b) :
    a / (c + a) < b / (c + b) := by
  rw [div_lt_div_iff₀ (by linarith) (by linarith)]
  nlinarith

/-- **C8.** For all frequencies `f2 > f1 > 0` the Thorp absorption
coefficient `0.11 f²/(1+f²) + 44 f²/(4100+f²) + 0.000275 f² + 0.003`
is strictly increasing: `thorp_absorption_coefficient f1 <
thorp_absorption_coefficient f2`. -/
theorem thorp_absorption_coefficient_strictMono (f1 f2 : ℚ)
    (h1 : 0 < f1) (h12 : f1 < f2) :
    thorp_absorption_coefficient f1 < thorp_absorption_coefficient f2 := by
  unfold thorp_absorption_coefficient
  have hsq : f1^2 < f2^2 := by nlinarith
  have hsq0 : 0 ≤ f1^2 := sq_nonneg f1
  have t1 : f1^2 / (1 + f1^2) < f2^2 / (1 + f2^2) :=
    thorp_term_lt 1 one_pos hsq0 hsq
  have t2 : f1^2 / (4100 + f1^2) < f2^2 / (4100 + f2^2) :=
    thorp_term_lt 4100 (by norm_num) hsq0 hsq
  have e1 : (11/100 : ℚ) * f1^2 / (1 + f1^2) < (11/100) * f2^2 / (1 + f2^2) := by
    rw [mul_div_assoc, mul_div_assoc]
    exact (mul_lt_mul_left (by norm_num)).2 t1
  have e2 : (44 : ℚ) * f1^2 / (4100 + f1^2) < 44 * f2^2 / (4100 + f2^2) := by
    rw [mul_div_assoc, mul_div_assoc]
    exact (mul_lt_mul_left (by norm_num)).2 t2
  have e3 : (275/1000000 : ℚ) * f1^2 < (275/1000000) * f2^2 := by nlinarith
  linarith

/-- Witness for C8: the theorem applied at the concrete frequencies 1 and 2 kHz. -/
theorem thorp_absorption_coefficient_strictMono_witness :
    (0 : ℚ) < 1 ∧ (1 : ℚ) < 2 ∧
      thorp_absorption_coefficient 1 < thorp_absorption_coefficient 2 :=
  ⟨by norm_num, by norm_num,
    thorp_absorption_coefficient_strictMono 1 2 (by norm_num) (by norm_num)⟩

/-- The binary-search loop stays within its initial interval: for any
probe behaviour the result lies in `[low, high]`. -/
lemma bisectLoop_mem (p : ℚ → Bool) (low high : ℚ) (hlh : low ≤ high) :
    low ≤ bisectLoop p low high ∧ bisectLoop p low high ≤ high := by
  generalize hm : (Int.ceil (10 * (high - low))).toNat = m
  induction m using Nat.strong_induction_on generalizing low high with
  | _ m ih =>
    rw [bisectLoop]
    by_cases h : 1/10 < high - low
    · simp only [h, dif_pos]
      have hmidlo : low ≤ (low + high) / 2 := by linarith
      have hmidhi : (low + high) / 2 ≤ high := by linarith
      have hx : (1 : ℚ) < 10 * (high - low) := by linarith
      have hceil2 : (2 : ℤ) ≤ Int.ceil (10 * (high - low)) := by
        rw [show (2:ℤ) = 1 + 1 by norm_num, Int.add_one_le_iff, Int.lt_ceil]
        exact_mod_cast hx
      have hle : Int.ceil (10 * ((high - low) / 2)) ≤ Int.ceil (10 * (high - low)) - 1 := by
        rw [Int.ceil_le]
        push_cast
        have hxle : 10 * (high - low) ≤ (Int.ceil (10 * (high - low)) : ℚ) := Int.le_ceil _
        have h2 : (2 : ℚ) ≤ (Int.ceil (10 * (high - low)) : ℚ) := by exact_mod_cast hceil2
        linarith
      have hlt : (Int.ceil (10 * ((high - low) / 2))).toNat < m := by omega
      by_cases hp : p ((low + high) / 2)
      · simp only [hp, if_pos]
        have harg : high - (low + high) / 2 = (high - low) / 2 := by ring
        have := ih _ hlt ((low + high) / 2) high hmidhi (by rw [harg])
        exact ⟨le_trans hmidlo this.1, this.2⟩
      · simp only [hp, if_neg, Bool.false_eq_true, not_false_eq_true]
        have harg : (low + high) / 2 - low = (high - low) / 2 := by ring
        have := ih _ hlt low ((low + high) / 2) hmidlo (by rw [harg])
        exact ⟨this.1, le_trans this.2 hmidhi⟩
    · simp only [h, dif_neg, not_false_eq_true]
      exact ⟨le_refl _, hlh⟩

/-- **C9.** For every probe behaviour — i.e. for every input-parameter
choice, including ones for which the SNR is not monotone in distance —
the binary search of `max_communication_range` terminates (it is a total
function: the interval `[1, 10000]` halves each iteration until its
width is at most the `0.1` tolerance, which is the well-founded measure
justifying `bisectLoop`) and the returned value lies in `[1, 10000]`. -/
theorem max_communication_range_mem (p : ℚ → Bool) :
    1 ≤ max_communication_range p ∧ max_communication_range p ≤ 10000 :=
  bisectLoop_mem p 1 10000 (by norm_num)

/-- Witness for C9: the result for the probe `distance ≤ 5000` lies in
`[1, 10000]`. -/
theorem max_communication_range_mem_witness :
    1 ≤ max_communication_range (fun q => decide (q ≤ 5000)) ∧
      max_communication_range (fun q => decide (q ≤ 5000)) ≤ 10000 :=
  max_communication_range_mem (fun q => decide (q ≤ 5000))

/-- **C2.** The claim says optimizer construction must fail fast with a
descriptive validation error on an invalid configuration.  The code
performs no validation: construction with an empty POI list, a zero
population size, max node counts of 0 and inverted bathymetric bounds
(25 above 8) succeeds and stores the invalid values unchanged. -/
theorem network_optimizer_init_accepts_invalid_config :
    ∃ st, network_optimizer_init [] (-33047237/1000000) (-71612686/1000000) 1
        0 320 (22/100) (88/100) 0 0 25 8 (fun _ => true) = .ok st ∧
      st.pois = [] ∧ st.popSize = 0 ∧ st.maxSns = 0 ∧ st.maxBgs = 0 ∧
      st.depthMin = 25 ∧ st.depthMax = 8 :=
  ⟨_, rfl, rfl, rfl, rfl, rfl, rfl, rfl⟩

/-- **C1.** The claim says two runs with identical configuration and
identical seed produce identical individuals.  The run configuration of
the code has no seed and the optimizer never seeds the global
generator, so the generated individuals are a function of the ambient
generator state: with the same configuration, two different states of
the raw draw stream produce different individuals. -/
theorem create_individual_depends_on_generator_state :
    create_individual ⟨1, 1, 0, 0, 1, 1, 8, 25⟩ (fun q => q) (fun q => q)
        (fun _ => 0) ≠
      create_individual ⟨1, 1, 0, 0, 1, 1, 8, 25⟩ (fun q => q) (fun q => q)
        (fun _ => 3/4) := by
  intro h
  have h1 := congrArg (fun l => (l.headD ⟨0, 0, 0, 0, 0⟩).active) h
  simp only [create_individual, List.range_succ, List.range_zero, List.nil_append,
    List.map_cons, List.map_nil, List.cons_append, List.headD_cons, sensorNode,
    choiceBit] at h1
  norm_num at h1

/-- **C4.** For every individual whose active-sensor count is 0 or
whose active-gateway count is 0, the evaluator returns exactly the
penalty pair `(1e6, 0.0)`. -/
theorem evaluate_degenerate (ctx : EvalCtx) (ind : List Node)
    (h : (activeSns ind).length = 0 ∨ (activeBgs ind).length = 0) :
    evaluate ctx ind = .ok (1000000, 0) := by
  unfold evaluate
  rw [if_pos h]

/-- Witness for C4: an individual with one inactive sensor and one
active gateway has active-sensor count 0 and evaluates to the penalty
pair. -/
theorem evaluate_degenerate_witness :
    (activeSns [⟨0, 0, 10, 0, 0⟩, ⟨0, 0, 0, 1, 1⟩]).length = 0 ∧
      evaluate ⟨[⟨1, 0, 0, 100⟩], 1, 5, 1000, fun _ _ _ _ => 0⟩
          [⟨0, 0, 10, 0, 0⟩, ⟨0, 0, 0, 1, 1⟩] = .ok (1000000, 0) :=
  ⟨by decide,
    evaluate_degenerate ⟨[⟨1, 0, 0, 100⟩], 1, 5, 1000, fun _ _ _ _ => 0⟩
      [⟨0, 0, 10, 0, 0⟩, ⟨0, 0, 0, 1, 1⟩] (Or.inl (by decide))⟩

/-- **C3.** For every individual, evaluation of an optimizer whose POI
list is non-empty (the configuration contract of §7; an empty POI list
is a configuration error, not a legal evaluator state) raises no
exception: it returns a `(cost, coverage)` pair, degenerate and
infeasible cases included.  The only partial operation in the body is
the division by the POI count, and it is guarded by the hypothesis. -/
theorem evaluate_total (ctx : EvalCtx) (ind : List Node) (h : ctx.pois ≠ []) :
    ∃ c v : ℚ, evaluate ctx ind = .ok (c, v) := by
  unfold evaluate
  by_cases h0 : (activeSns ind).length = 0 ∨ (activeBgs ind).length = 0
  · exact ⟨_, _, by rw [if_pos h0]⟩
  · have hlen : ¬ ctx.pois.length = 0 := by
      simpa [List.length_eq_zero] using h
    by_cases hc : check_connectivity ctx.dist ctx.maxRange (activeSns ind) (activeBgs ind)
    · exact ⟨_, _, by rw [if_neg h0, if_neg hlen, if_pos hc]⟩
    · exact ⟨_, _, by rw [if_neg h0, if_neg hlen, if_neg hc]⟩

/-- Witness for C3: a non-empty POI list and an individual with one
active sensor and one active gateway evaluate to an `ok` pair. -/
theorem evaluate_total_witness :
    ([⟨1, 0, 0, 100⟩] : List Poi) ≠ [] ∧
      ∃ c v : ℚ, evaluate ⟨[⟨1, 0, 0, 100⟩], 1, 5, 1000, fun _ _ _ _ => 0⟩
          [⟨0, 0, 10, 1, 0⟩, ⟨0, 0, 0, 1, 1⟩] = .ok (c, v) :=
  ⟨by decide,
    evaluate_total ⟨[⟨1, 0, 0, 100⟩], 1, 5, 1000, fun _ _ _ _ => 0⟩
      [⟨0, 0, 10, 1, 0⟩, ⟨0, 0, 0, 1, 1⟩] (by decide)⟩

/-- **C6.** For every individual with at least one active sensor and at
least one active gateway (and the non-empty POI list the division
requires), the evaluator computes
`cost = activeSensors × relativeSensorCost + activeGateways × relativeGatewayCost`
and returns `(cost, coveragePct)` when the connectivity checker reports
feasible, and exactly `(cost × 10, coveragePct × 0.1)` when it reports
infeasible. -/
theorem evaluate_cost_and_penalty (ctx : EvalCtx) (ind : List Node)
    (hp : ctx.pois ≠ []) (hs : (activeSns ind).length ≠ 0)
    (hb : (activeBgs ind).length ≠ 0) :
    evaluate ctx ind =
      if check_connectivity ctx.dist ctx.maxRange (activeSns ind) (activeBgs ind) then
        .ok (((activeSns ind).length : ℚ) * ctx.sensorCost
              + ((activeBgs ind).length : ℚ) * ctx.gatewayCost,
             coveragePct ctx ind)
      else
        .ok ((((activeSns ind).length : ℚ) * ctx.sensorCost
              + ((activeBgs ind).length : ℚ) * ctx.gatewayCost) * 10,
             coveragePct ctx ind * (1/10)) := by
  have h0 : ¬ ((activeSns ind).length = 0 ∨ (activeBgs ind).length = 0) := by
    push_neg
    exact ⟨hs, hb⟩
  have hlen : ¬ ctx.pois.length = 0 := by
    simpa [List.length_eq_zero] using hp
  unfold evaluate evalCost
  rw [if_neg h0, if_neg hlen]

/-- Witness for C6: concrete evaluation of an individual with one
active sensor and one active gateway against one POI, a zero distance
oracle and range 1000 (feasible, fully covered). -/
theorem evaluate_cost_and_penalty_witness :
    ([⟨1, 0, 0, 100⟩] : List Poi) ≠ [] ∧
      (activeSns [⟨0, 0, 10, 1, 0⟩, ⟨0, 0, 0, 1, 1⟩]).length ≠ 0 ∧
      (activeBgs [⟨0, 0, 10, 1, 0⟩, ⟨0, 0, 0, 1, 1⟩]).length ≠ 0 ∧
      evaluate ⟨[⟨1, 0, 0, 100⟩], 1, 5, 1000, fun _ _ _ _ => 0⟩
          [⟨0, 0, 10, 1, 0⟩, ⟨0, 0, 0, 1, 1⟩] =
        if check_connectivity (fun _ _ _ _ => 0) 1000
            (activeSns [⟨0, 0, 10, 1, 0⟩, ⟨0, 0, 0, 1, 1⟩])
            (activeBgs [⟨0, 0, 10, 1, 0⟩, ⟨0, 0, 0, 1, 1⟩]) then
          .ok (((activeSns [⟨0, 0, 10, 1, 0⟩, ⟨0, 0, 0, 1, 1⟩]).length : ℚ) * 1
                + ((activeBgs [⟨0, 0, 10, 1, 0⟩, ⟨0, 0, 0, 1, 1⟩]).length : ℚ) * 5,
               coveragePct ⟨[⟨1, 0, 0, 100⟩], 1, 5, 1000, fun _ _ _ _ => 0⟩
                 [⟨0, 0, 10, 1, 0⟩, ⟨0, 0, 0, 1, 1⟩])
        else
          .ok ((((activeSns [⟨0, 0, 10, 1, 0⟩, ⟨0, 0, 0, 1, 1⟩]).length : ℚ) * 1
                + ((activeBgs [⟨0, 0, 10, 1, 0⟩, ⟨0, 0, 0, 1, 1⟩]).length : ℚ) * 5) * 10,
               coveragePct ⟨[⟨1, 0, 0, 100⟩], 1, 5, 1000, fun _ _ _ _ => 0⟩
                 [⟨0, 0, 10, 1, 0⟩, ⟨0, 0, 0, 1, 1⟩] * (1/10)) :=
  ⟨by decide, by decide, by decide,
    evaluate_cost_and_penalty ⟨[⟨1, 0, 0, 100⟩], 1, 5, 1000, fun _ _ _ _ => 0⟩
      [⟨0, 0, 10, 1, 0⟩, ⟨0, 0, 0, 1, 1⟩] (by decide) (by decide) (by decide)⟩

/-- A single node mutation never changes the depth field. -/
lemma mutateNode_depth (ctx : MutCtx) (d : MutDraw) (nd : Node) :
    (mutateNode ctx d nd).depth = nd.depth := by
  cases d <;> rfl

/-- A single node mutation never changes the type tag. -/
lemma mutateNode_nodeType (ctx : MutCtx) (d : MutDraw) (nd : Node) :
    (mutateNode ctx d nd).nodeType = nd.nodeType := by
  cases d <;> rfl

/-- The mutation loop relates input and output nodes position by
position, preserving depth and type. -/
lemma mutateFrom_forall₂ (ctx : MutCtx) (draws : ℕ → MutDraw) :
    ∀ (i : ℕ) (ind : List Node),
      List.Forall₂ (fun old new => new.depth = old.depth ∧ new.nodeType = old.nodeType)
        ind (mutateFrom ctx draws i ind) := by
  intro i ind
  induction ind generalizing i with
  | nil => exact List.Forall₂.nil
  | cons a l ih =>
      exact List.Forall₂.cons
        ⟨mutateNode_depth ctx (draws i) a, mutateNode_nodeType ctx (draws i) a⟩
        (ih (i + 1))

/-- **C10.** For every individual and every outcome of the random
draws, mutation preserves the individual's length and leaves every
node's depth and role (type tag) unchanged: the output nodes correspond
one to one, in order, to the input nodes with equal `depth` and equal
`nodeType` (only latitude, longitude and the activation flag can
change). -/
theorem mutate_preserves_length_depth_role (ctx : MutCtx) (draws : ℕ → MutDraw)
    (ind : List Node) :
    (mutate ctx draws ind).length = ind.length ∧
      List.Forall₂ (fun old new => new.depth = old.depth ∧ new.nodeType = old.nodeType)
        ind (mutate ctx draws ind) :=
  ⟨(mutateFrom_forall₂ ctx draws 0 ind).length_eq.symm,
    mutateFrom_forall₂ ctx draws 0 ind⟩

/-- Dropping past the upper cut point factors through dropping past the
lower one. -/
lemma drop_factor (q1 q2 : ℕ) (l : List Node) (h : q1 ≤ q2) :
    l.drop q2 = (l.drop q1).drop (q2 - q1) := by
  rw [List.drop_drop]
  congr 1
  omega

/-- A list decomposes as prefix, middle slice and suffix at two sorted
cut points. -/
lemma take_slice_drop (q1 q2 : ℕ) (l : List Node) (h : q1 ≤ q2) :
    l.take q1 ++ (l.drop q1).take (q2 - q1) ++ l.drop q2 = l := by
  rw [List.append_assoc, drop_factor q1 q2 l h, List.take_append_drop,
    List.take_append_drop]

/-- Swapping the `[q1, q2)` slice between two equal-length lists
preserves both lengths and the combined multiset of elements. -/
lemma swap_slices_spec (q1 q2 : ℕ) (l1 l2 : List Node) (hq : q1 ≤ q2)
    (hq2 : q2 ≤ l1.length) (hlen : l2.length = l1.length) :
    (l1.take q1 ++ (l2.drop q1).take (q2 - q1) ++ l1.drop q2).length = l1.length ∧
    (l2.take q1 ++ (l1.drop q1).take (q2 - q1) ++ l2.drop q2).length = l2.length ∧
    (((l1.take q1 ++ (l2.drop q1).take (q2 - q1) ++ l1.drop q2) ++
      (l2.take q1 ++ (l1.drop q1).take (q2 - q1) ++ l2.drop q2) : List Node) : Multiset Node) =
      ((l1 ++ l2 : List Node) : Multiset Node) := by
  refine ⟨?_, ?_, ?_⟩
  · simp only [List.length_append, List.length_take, List.length_drop]
    omega
  · simp only [List.length_append, List.length_take, List.length_drop]
    omega
  · conv_rhs => rw [← take_slice_drop q1 q2 l1 hq, ← take_slice_drop q1 q2 l2 hq]
    simp only [← Multiset.coe_add]
    abel

/-- **C7.** For every pair of individuals of equal length `n ≥ 2` and
every pair of cut points drawn in `[1, n-1]`, crossover produces two
offspring each of length `n`, and the multiset union of all nodes
across the two offspring equals the multiset union of all nodes across
the two parents. -/
theorem crossover_preserves_length_and_nodes (n p1 p2 : ℕ) (ind1 ind2 : List Node)
    (hn : 2 ≤ n) (h1 : ind1.length = n) (h2 : ind2.length = n)
    (hp1l : 1 ≤ p1) (hp1u : p1 ≤ n - 1) (hp2l : 1 ≤ p2) (hp2u : p2 ≤ n - 1) :
    (crossover p1 p2 ind1 ind2).1.length = n ∧
      (crossover p1 p2 ind1 ind2).2.length = n ∧
      (((crossover p1 p2 ind1 ind2).1 ++ (crossover p1 p2 ind1 ind2).2 :
          List Node) : Multiset Node) =
        ((ind1 ++ ind2 : List Node) : Multiset Node) := by
  by_cases hgt : p1 > p2
  · have hspec := swap_slices_spec p2 p1 ind1 ind2 (le_of_lt hgt)
      (by omega) (by omega)
    simp only [crossover, if_pos hgt]
    exact ⟨by rw [hspec.1, h1], by rw [hspec.2.1, h2], hspec.2.2⟩
  · have hspec := swap_slices_spec p1 p2 ind1 ind2 (by omega)
      (by omega) (by omega)
    simp only [crossover, if_neg hgt]
    exact ⟨by rw [hspec.1, h1], by rw [hspec.2.1, h2], hspec.2.2⟩

/-- Witness for C7: crossover at cut points `(2, 1)` on two concrete
individuals of length 3 keeps both lengths at 3 and the combined node
multiset unchanged. -/
theorem crossover_preserves_length_and_nodes_witness :
    (crossover 2 1 [⟨0, 0, 10, 1, 0⟩, ⟨1, 1, 12, 0, 0⟩, ⟨2, 2, 0, 1, 1⟩]
        [⟨3, 3, 14, 1, 0⟩, ⟨4, 4, 16, 0, 0⟩, ⟨5, 5, 0, 0, 1⟩]).1.length = 3 ∧
      (crossover 2 1 [⟨0, 0, 10, 1, 0⟩, ⟨1, 1, 12, 0, 0⟩, ⟨2, 2, 0, 1, 1⟩]
          [⟨3, 3, 14, 1, 0⟩, ⟨4, 4, 16, 0, 0⟩, ⟨5, 5, 0, 0, 1⟩]).2.length = 3 ∧
      (((crossover 2 1 [⟨0, 0, 10, 1, 0⟩, ⟨1, 1, 12, 0, 0⟩, ⟨2, 2, 0, 1, 1⟩]
            [⟨3, 3, 14, 1, 0⟩, ⟨4, 4, 16, 0, 0⟩, ⟨5, 5, 0, 0, 1⟩]).1 ++
          (crossover 2 1 [⟨0, 0, 10, 1, 0⟩, ⟨1, 1, 12, 0, 0⟩, ⟨2, 2, 0, 1, 1⟩]
            [⟨3, 3, 14, 1, 0⟩, ⟨4, 4, 16, 0, 0⟩, ⟨5, 5, 0, 0, 1⟩]).2 :
            List Node) : Multiset Node) =
        (([⟨0, 0, 10, 1, 0⟩, ⟨1, 1, 12, 0, 0⟩, ⟨2, 2, 0, 1, 1⟩] ++
            [⟨3, 3, 14, 1, 0⟩, ⟨4, 4, 16, 0, 0⟩, ⟨5, 5, 0, 0, 1⟩] :
            List Node) : Multiset Node) :=
  crossover_preserves_length_and_nodes 3 2 1
    [⟨0, 0, 10, 1, 0⟩, ⟨1, 1, 12, 0, 0⟩, ⟨2, 2, 0, 1, 1⟩]
    [⟨3, 3, 14, 1, 0⟩, ⟨4, 4, 16, 0, 0⟩, ⟨5, 5, 0, 0, 1⟩]
    (by norm_num) (by decide) (by decide) (by norm_num) (by norm_num)
    (by norm_num) (by norm_num)

/-- The frontier set only grows under one expansion round. -/
lemma subset_reachStep {n : ℕ} (adj : Fin n → Fin n → Bool) (s : Finset (Fin n)) :
    s ⊆ reachStep adj s :=
  Finset.subset_union_left

/-- The start vertex stays in every frontier. -/
lemma start_mem_reachIter {n : ℕ} (adj : Fin n → Fin n → Bool) (k : ℕ) (v : Fin n) :
    v ∈ reachIter adj k v := by
  induction k with
  | zero => simp [reachIter]
  | succ k ih => exact subset_reachStep adj _ ih

/-- Each expansion round either fixes the frontier or grows its
cardinality past `k + 1`. -/
lemma reachIter_grow {n : ℕ} (adj : Fin n → Fin n → Bool) (v : Fin n) :
    ∀ k, reachIter adj (k + 1) v = reachIter adj k v ∨
      k + 2 ≤ (reachIter adj (k + 1) v).card := by
  intro k
  induction k with
  | zero =>
    by_cases h : reachIter adj (0 + 1) v = reachIter adj 0 v
    · exact Or.inl h
    · right
      have hsub : reachIter adj 0 v ⊂ reachIter adj (0 + 1) v :=
        ssubset_of_subset_of_ne (subset_reachStep adj _) (Ne.symm h)
      have hcard := Finset.card_lt_card hsub
      have h1 : (reachIter adj 0 v).card = 1 := by simp [reachIter]
      omega
  | succ k ih =>
    by_cases h : reachIter adj (k + 1 + 1) v = reachIter adj (k + 1) v
    · exact Or.inl h
    · right
      rcases ih with heq | hcard
      · exfalso
        apply h
        calc reachIter adj (k + 1 + 1) v
            = reachStep adj (reachIter adj (k + 1) v) := rfl
          _ = reachStep adj (reachIter adj k v) := by rw [heq]
          _ = reachIter adj (k + 1) v := rfl
      · have hsub : reachIter adj (k + 1) v ⊂ reachIter adj (k + 1 + 1) v :=
          ssubset_of_subset_of_ne (subset_reachStep adj _) (Ne.symm h)
        have := Finset.card_lt_card hsub
        omega

/-- After `n` rounds on `n` vertices the frontier is closed under
expansion. -/
lemma reachStep_fix {n : ℕ} (adj : Fin n → Fin n → Bool) (v : Fin n) :
    reachStep adj (reachIter adj n v) = reachIter adj n v := by
  rcases reachIter_grow adj v n with h | h
  · exact h
  · exfalso
    have hle : (reachIter adj (n + 1) v).card ≤ n := by
      have := Finset.card_le_univ (reachIter adj (n + 1) v)
      simpa using this
    omega

/-- Soundness of the expansion: every frontier vertex is reachable. -/
lemma reflTransGen_of_mem_reachIter {n : ℕ} (adj : Fin n → Fin n → Bool) (v : Fin n) :
    ∀ (k : ℕ) (t : Fin n), t ∈ reachIter adj k v →
      Relation.ReflTransGen (fun a b => adj a b = true) v t := by
  intro k
  induction k with
  | zero =>
    intro t ht
    have : t = v := by simpa [reachIter] using ht
    exact this ▸ Relation.ReflTransGen.refl
  | succ k ih =>
    intro t ht
    simp only [reachIter, reachStep, Finset.mem_union, Finset.mem_filter,
      Finset.mem_univ, true_and] at ht
    rcases ht with ht | ⟨i, hi, hadj⟩
    · exact ih t ht
    · exact (ih i hi).tail hadj

/-- Completeness of the expansion: every reachable vertex is in the
saturated frontier. -/
lemma mem_reachIter_of_reflTransGen {n : ℕ} (adj : Fin n → Fin n → Bool) (v t : Fin n)
    (h : Relation.ReflTransGen (fun a b => adj a b = true) v t) :
    t ∈ reachIter adj n v := by
  induction h with
  | refl => exact start_mem_reachIter adj n v
  | tail _ hadj ih =>
    rw [← reachStep_fix adj v]
    exact Finset.mem_union_right _ (Finset.mem_filter.2 ⟨Finset.mem_univ _, _, ih, hadj⟩)

/-- The breadth-first search test decides reachability in the
adjacency relation. -/
lemma reachBfs_iff {n : ℕ} (adj : Fin n → Fin n → Bool) (s t : Fin n) :
    reachBfs adj s t = true ↔ Relation.ReflTransGen (fun a b => adj a b = true) s t := by
  unfold reachBfs
  rw [decide_eq_true_iff]
  exact ⟨reflTransGen_of_mem_reachIter adj s n t, mem_reachIter_of_reflTransGen adj s t⟩

/-- In `all_nodes = active_sns ++ active_bgs`, an index below the
sensor count holds a sensor-typed node. -/
lemma nodeType_append_left (sns bgs : List Node) (hs : ∀ x ∈ sns, x.nodeType = 0)
    (i : Fin (sns ++ bgs).length) (h : i.val < sns.length) :
    ((sns ++ bgs).get i).nodeType = 0 := by
  have hg : (sns ++ bgs).get i = sns.get ⟨i.val, h⟩ := by
    simp [List.getElem_append_left h]
  rw [hg]
  exact hs _ (List.get_mem sns i.val h)

/-- In `all_nodes = active_sns ++ active_bgs`, an index at or past the
sensor count holds a gateway-typed node. -/
lemma nodeType_append_right (sns bgs : List Node) (hb : ∀ x ∈ bgs, x.nodeType = 1)
    (i : Fin (sns ++ bgs).length) (h : sns.length ≤ i.val) :
    ((sns ++ bgs).get i).nodeType = 1 := by
  have h2 : i.val - sns.length < bgs.length := by
    have := i.isLt
    simp only [List.length_append] at this
    omega
  have hg : (sns ++ bgs).get i = bgs.get ⟨i.val - sns.length, h2⟩ := by
    simp [List.getElem_append_right h]
  rw [hg]
  exact hb _ (List.get_mem bgs _ h2)

/-- Under the role hypotheses, the gateway indices computed by
`_check_connectivity` are exactly the indices at or past the sensor
count. -/
lemma mem_bgIndices (sns bgs : List Node) (hs : ∀ x ∈ sns, x.nodeType = 0)
    (hb : ∀ x ∈ bgs, x.nodeType = 1) (i : Fin (sns ++ bgs).length) :
    i ∈ bgIndices (sns ++ bgs) ↔ sns.length ≤ i.val := by
  unfold bgIndices
  simp only [List.mem_filter, List.mem_finRange, true_and, decide_eq_true_eq]
  constructor
  · intro h1
    by_contra hlt
    have := nodeType_append_left sns bgs hs i (by omega)
    omega
  · intro hge
    exact nodeType_append_right sns bgs hb i hge

/-- The sensor indices of `_check_connectivity` are the indices below
the sensor count. -/
lemma mem_snIndices (numSns : ℕ) (all : List Node) (i : Fin all.length) :
    i ∈ snIndices numSns all ↔ i.val < numSns := by
  unfold snIndices
  simp [List.mem_filter]

/-- The connectivity checker, characterized: under the role
hypotheses, it reports feasible iff some gateway is active and every
active sensor reaches some active gateway in the proximity graph. -/
lemma check_connectivity_iff (d : ℚ → ℚ → ℚ → ℚ → ℚ) (maxRange : ℚ)
    (sns bgs : List Node) (hs : ∀ x ∈ sns, x.nodeType = 0)
    (hb : ∀ x ∈ bgs, x.nodeType = 1) :
    check_connectivity d maxRange sns bgs = true ↔
      (bgs ≠ [] ∧ ∀ s : Fin (sns ++ bgs).length, s.val < sns.length →
        ∃ b : Fin (sns ++ bgs).length, sns.length ≤ b.val ∧
          Relation.ReflTransGen
            (fun i j => adjB d maxRange (sns ++ bgs) i j = true) s b) := by
  unfold check_connectivity
  by_cases hbe : bgs.isEmpty = true
  · rw [if_pos hbe]
    simp only [Bool.false_eq_true, false_iff, not_and]
    intro hne
    exact absurd (List.isEmpty_iff.mp hbe) hne
  · have hne : bgs ≠ [] := by
      intro hnil
      exact hbe (by simp [hnil])
    have hlen : sns.length < (sns ++ bgs).length := by
      have : 0 < bgs.length := List.length_pos.mpr hne
      simp only [List.length_append]
      omega
    have hg0 : (⟨sns.length, hlen⟩ : Fin (sns ++ bgs).length) ∈ bgIndices (sns ++ bgs) :=
      (mem_bgIndices sns bgs hs hb _).mpr (le_refl _)
    have hbne : ¬ (bgIndices (sns ++ bgs)).isEmpty = true := by
      intro hI
      rw [List.isEmpty_iff.mp hI] at hg0
      exact absurd hg0 (List.not_mem_nil _)
    rw [if_neg hbe, if_neg hbne, List.all_eq_true]
    constructor
    · intro hall
      refine ⟨hne, fun s hslt => ?_⟩
      have hsmem : s ∈ snIndices sns.length (sns ++ bgs) :=
        (mem_snIndices sns.length (sns ++ bgs) s).mpr hslt
      have hany := hall s hsmem
      rw [List.any_eq_true] at hany
      rcases hany with ⟨b, hbmem, hreach⟩
      exact ⟨b, (mem_bgIndices sns bgs hs hb b).mp hbmem,
        (reachBfs_iff (adjB d maxRange (sns ++ bgs)) s b).mp hreach⟩
    · rintro ⟨-, hforall⟩ s hsmem
      have hslt := (mem_snIndices sns.length (sns ++ bgs) s).mp hsmem
      rcases hforall s hslt with ⟨b, hble, hpath⟩
      rw [List.any_eq_true]
      exact ⟨b, (mem_bgIndices sns bgs hs hb b).mpr hble,
        (reachBfs_iff (adjB d maxRange (sns ++ bgs)) s b).mpr hpath⟩

/-- The star topology: one gateway, every sensor in direct range of
it, is feasible for every number of sensors. -/
lemma star_topology_feasible (d : ℚ → ℚ → ℚ → ℚ → ℚ) (maxRange : ℚ)
    (sns : List Node) (g : Node) (hs : ∀ x ∈ sns, x.nodeType = 0)
    (hg : g.nodeType = 1) (hd : ∀ x ∈ sns, havDist d x g ≤ maxRange) :
    check_connectivity d maxRange sns [g] = true := by
  rw [check_connectivity_iff d maxRange sns [g] hs (by simpa using hg)]
  refine ⟨by simp, fun s hslt => ?_⟩
  have hlen : sns.length < (sns ++ [g]).length := by simp
  refine ⟨⟨sns.length, hlen⟩, le_refl _, Relation.ReflTransGen.single ?_⟩
  unfold adjB
  rw [if_pos hslt, decide_eq_true_iff]
  have hget_s : (sns ++ [g]).get s = sns.get ⟨s.val, hslt⟩ := by
    simp [List.getElem_append_left hslt]
  have hget_b : (sns ++ [g]).get ⟨sns.length, hlen⟩ = g := by
    simp
  rw [hget_s, hget_b]
  exact hd _ (List.get_mem sns s.val hslt)

/-- **C5.** First conjunct: for every set of active sensors and active
gateways (nodes carrying the corresponding role tags), the connectivity
checker reports feasible iff at least one gateway is active and every
active sensor index has a path, in the undirected proximity graph whose
edges join pairs of active nodes within `maxRange`, to at least one
active gateway index.  Second conjunct: every star topology of one
active gateway with `N` active sensors all within `maxRange` of that
gateway is feasible, for every `N` (the sensor list is arbitrary). -/
theorem check_connectivity_feasibility (d : ℚ → ℚ → ℚ → ℚ → ℚ) (maxRange : ℚ) :
    (∀ sns bgs : List Node, (∀ x ∈ sns, x.nodeType = 0) →
      (∀ x ∈ bgs, x.nodeType = 1) →
      (check_connectivity d maxRange sns bgs = true ↔
        (bgs ≠ [] ∧ ∀ s : Fin (sns ++ bgs).length, s.val < sns.length →
          ∃ b : Fin (sns ++ bgs).length, sns.length ≤ b.val ∧
            Relation.ReflTransGen
              (fun i j => adjB d maxRange (sns ++ bgs) i j = true) s b))) ∧
    (∀ (sns : List Node) (g : Node), (∀ x ∈ sns, x.nodeType = 0) →
      g.nodeType = 1 → (∀ x ∈ sns, havDist d x g ≤ maxRange) →
      check_connectivity d maxRange sns [g] = true) :=
  ⟨fun sns bgs hs hb => check_connectivity_iff d maxRange sns bgs hs hb,
   fun sns g hs hg hd => star_topology_feasible d maxRange sns g hs hg hd⟩

/-- Witness for C5: a two-sensor star around one gateway under the zero
distance oracle is feasible. -/
theorem check_connectivity_feasibility_witness :
    check_connectivity (fun _ _ _ _ => 0) 1000
      [⟨0, 0, 10, 1, 0⟩, ⟨1, 1, 12, 1, 0⟩] [⟨0, 0, 0, 1, 1⟩] = true :=
  (check_connectivity_feasibility (fun _ _ _ _ => 0) 1000).2
    [⟨0, 0, 10, 1, 0⟩, ⟨1, 1, 12, 1, 0⟩] ⟨0, 0, 0, 1, 1⟩
    (by decide) rfl (by decide)
